import Mathlib

/-!
Shallow embedding of `src/platform/bizhawk/bizinterface.c`, the BizHawk
bridge of the mGBA core, together with theorems checking specification
claims about it.

Engine entry points whose code is not part of this source file
(`GBAIsBIOS`, `GBAIsROM`, `ARMRunLoop`, the `blip` resampler, the savedata
autodetection inside `GBALoadROM`) are abstracted as parameters of the
embedded functions, or modelled from the spec where noted.
-/

namespace BizInterface

/-- Cartridge save-data capacities from the core headers, in bytes: the
standard GBA sizes named by the spec (1 Mbit flash, 512 kbit flash,
8 KiB EEPROM, 32 KiB SRAM). -/
def SIZE_CART_FLASH1M : Nat := 131072

/-- Capacity of a 512 kbit flash cartridge save, in bytes. -/
def SIZE_CART_FLASH512 : Nat := 65536

/-- Capacity of an EEPROM cartridge save, in bytes. -/
def SIZE_CART_EEPROM : Nat := 8192

/-- Capacity of an SRAM cartridge save, in bytes. -/
def SIZE_CART_SRAM : Nat := 32768

/-- Frame width in pixels (`VIDEO_HORIZONTAL_PIXELS`). -/
def VIDEO_HORIZONTAL_PIXELS : Nat := 240

/-- Frame height in pixels (`VIDEO_VERTICAL_PIXELS`). -/
def VIDEO_VERTICAL_PIXELS : Nat := 160

/-- The cartridge save-data type enumeration of the engine, as consumed by
`BizGetSaveRamSize`. -/
inductive SavedataType where
  | autodetect
  | forceNone
  | sram
  | flash512
  | flash1m
  | eeprom

/-- The `bizctx` aggregate. Byte buffers are lists of byte values; virtual-file
handles are `Option Nat` (`none` is a NULL pointer, which `calloc`
zero-initialization produces for every handle). `calloc` zeroes the whole
struct and `BizCreate` immediately memsets `savedata` to `0xff`, which the
field defaults reproduce. The engine-side savedata type written by
`GBALoadROM` is carried in `savedataType`. -/
structure Bizctx where
  rom : Option (List Nat) := none
  romvf : Option Nat := none
  bios : List Nat := List.replicate 16384 0
  biosvf : Option Nat := none
  savedata : List Nat := List.replicate SIZE_CART_FLASH1M 0xff
  sramvf : Option Nat := none
  savedataType : SavedataType := SavedataType.autodetect
  tiltx : Int := 0
  tilty : Int := 0
  tiltz : Int := 0
  time : Int := 0
  light : Nat := 0

/-- Resource accounting for one context: which heap allocations and
virtual-file handles created by the bridge are currently live. A fresh
program state is all-`false`. -/
structure Res where
  ctxAlloc : Bool := false
  gbaLive : Bool := false
  biosvfOpen : Bool := false
  romBufLive : Bool := false
  romvfOpen : Bool := false
  sramvfOpen : Bool := false

/-- Observable events of `BizCreate`, in program order. `memsetSavedata true`
records a `memset` through a NULL context pointer. -/
inductive CEvent where
  | calloc (ok : Bool)
  | memsetSavedata (throughNull : Bool)
  | gbaCreate
  | openBiosVF
  | closeBiosVF
  | gbaDestroy
  | freeCtx
  | loadBios

/-- Embedding of `BizCreate`. `allocOk` is whether `calloc` succeeds; `bios`
is the optional BIOS bytes of the caller; `isBIOS` abstracts the engine
`GBAIsBIOS` validation of the copied 16 KiB image. Returns the context (or
NULL), the live resources, and the event trace. Faithful to source order:
the `memset` of `savedata` at line 100 runs before the `if (ctx)` null
check at line 101, which the trace records. -/
def BizCreate (allocOk : Bool) (bios : Option (List Nat)) (isBIOS : List Nat → Bool) :
    Option Bizctx × Res × List CEvent :=
  let preEvents : List CEvent := [CEvent.calloc allocOk, CEvent.memsetSavedata (!allocOk)]
  if allocOk then
    let res0 : Res := { ctxAlloc := true, gbaLive := true }
    match bios with
    | some b =>
      let bcopy := b.take 16384
      if isBIOS bcopy then
        (some { bios := bcopy, biosvf := some 0 }, { res0 with biosvfOpen := true },
          preEvents ++ [CEvent.gbaCreate, CEvent.openBiosVF, CEvent.loadBios])
      else
        (none, {}, preEvents ++ [CEvent.gbaCreate, CEvent.openBiosVF, CEvent.closeBiosVF,
          CEvent.gbaDestroy, CEvent.freeCtx])
    | none => (some {}, res0, preEvents ++ [CEvent.gbaCreate])
  else
    (none, {}, preEvents)

/-- Embedding of `BizLoad`. `allocOk` is whether the ROM `malloc` succeeds;
`isROM` abstracts `GBAIsROM`; `detectType` abstracts the savedata type the
engine detects in `GBALoadROM` together with any override applied after it.
Returns the updated context, the updated resources, and the C return value
as a Bool (`1` success, `0` failure). -/
def BizLoad (ctx : Bizctx) (res : Res) (data : List Nat) (allocOk : Bool)
    (isROM : List Nat → Bool) (detectType : List Nat → SavedataType) :
    Bizctx × Res × Bool :=
  if allocOk then
    let ctx1 : Bizctx := { ctx with rom := some data, romvf := some 1 }
    let res1 : Res := { res with romBufLive := true, romvfOpen := true }
    if isROM data then
      ({ ctx1 with sramvf := some 2, savedataType := detectType data },
        { res1 with sramvfOpen := true }, true)
    else
      ({ ctx1 with romvf := none, rom := none },
        { res1 with romvfOpen := false, romBufLive := false }, false)
  else
    ({ ctx with rom := none }, res, false)

/-- Embedding of `BizDestroy`. The source closes `ctx->romvf` and
`ctx->sramvf` unconditionally (only `biosvf` is guarded by a NULL test), so
a NULL handle in either field is dereferenced: the result is `none` for the
crash and `some` of the final resource state otherwise. -/
def BizDestroy (ctx : Bizctx) : Option Res :=
  match ctx.romvf with
  | none => none
  | some _ =>
    match ctx.sramvf with
    | none => none
    | some _ => some {}

/-- Contexts on which `BizCreate` succeeded and every subsequent `BizLoad`
returned failure: no successful Load has been performed. -/
inductive NoSuccessfulLoad : Bizctx → Prop where
  | created (allocOk : Bool) (bios : Option (List Nat)) (isBIOS : List Nat → Bool)
      (ctx : Bizctx) (res : Res) (ev : List CEvent)
      (h : BizCreate allocOk bios isBIOS = (some ctx, res, ev)) : NoSuccessfulLoad ctx
  | failedLoad (ctx : Bizctx) (res : Res) (data : List Nat) (allocOk : Bool)
      (isROM : List Nat → Bool) (detectType : List Nat → SavedataType)
      (h : NoSuccessfulLoad ctx)
      (hfail : (BizLoad ctx res data allocOk isROM detectType).2.2 = false) :
      NoSuccessfulLoad (BizLoad ctx res data allocOk isROM detectType).1

/-- The sensor arguments of one `BizAdvance` call. -/
structure AdvanceInputs where
  keys : Int := 0
  time : Int := 0
  gyrox : Int := 0
  gyroy : Int := 0
  gyroz : Int := 0
  luma : Nat := 0

/-- The latching prologue of `BizAdvance` (lines 230 to 235): each sensor
argument overwrites the corresponding context field. -/
def latchInputs (ctx : Bizctx) (a : AdvanceInputs) : Bizctx :=
  { ctx with
    light := a.luma
    time := a.time
    tiltx := a.gyrox
    tilty := a.gyroy
    tiltz := a.gyroz }

/-- Embedding of the `GetX` rotation accessor: recovers the owning context
from the embedded `rotsource` member and returns `tiltx << 16`. The shift of
an `int16_t` value left by 16 stays inside `int32_t` range, so it is exact
multiplication by `2 ^ 16`. -/
def GetX (ctx : Bizctx) : Int := ctx.tiltx * 2 ^ 16

/-- Embedding of the `GetY` rotation accessor: `tilty << 16`. -/
def GetY (ctx : Bizctx) : Int := ctx.tilty * 2 ^ 16

/-- Embedding of the `GetZ` rotation accessor: `tiltz << 16`. -/
def GetZ (ctx : Bizctx) : Int := ctx.tiltz * 2 ^ 16

/-- Embedding of the `GetLight` luminance accessor: returns `light`
unmodified. -/
def GetLight (ctx : Bizctx) : Nat := ctx.light

/-- Embedding of the `GetTime` clock accessor: returns `time` unmodified. -/
def GetTime (ctx : Bizctx) : Int := ctx.time

/-- The frame-stepping loop of `BizAdvance` (lines 236 to 240), over an
abstract engine state `E`. `step` is one `ARMRunLoop` call, `fc` reads
`gba.video.frameCounter`, `entry` is the counter value recorded at entry,
and `fuel` bounds the iteration so the loop is a total function; `none`
means the fuel ran out before a frame boundary. -/
def frameLoop {E : Type} (step : E → E) (fc : E → Nat) : Nat → Nat → E → Option E
  | 0, _, _ => none
  | fuel + 1, entry, s =>
    if fc s = entry then frameLoop step fc fuel entry (step s) else some s

/-- The video part of `BizAdvance`: record the frame counter, then run the
engine until it changes. -/
def BizAdvanceVideo {E : Type} (step : E → E) (fc : E → Nat) (fuel : Nat) (s : E) :
    Option E :=
  frameLoop step fc fuel (fc s) s

/-- The per-byte channel expansion used by `blit`: `value | value >> 5`. -/
def expand5 (b : Nat) : Nat := b ||| b >>> 5

/-- Modelled from the spec: the internal framebuffer of the engine stores each
5-bit color channel in one byte, positioned so that the bit-replication
formula of `blit` expands it to 8 bits, i.e. the byte holds the channel
value shifted left by 3. The renderer that produces this byte layout is not
part of this source file. -/
def channelByte (c : Nat) : Nat := c <<< 3

/-- Embedding of `blit` (lines 190 to 225) on the flat byte array of the
framebuffer, 4 bytes per pixel: for each pixel, output byte 0 takes input
byte 2 expanded, byte 1 takes input byte 1 expanded, byte 2 takes input
byte 0 expanded (red and blue swapped), and byte 3 is forced to `0xff`;
input byte 3 is ignored. The fourfold unrolling of the source loop performs
this same transformation on every group of 4 bytes. -/
def blit : List Nat → List Nat
  | s0 :: s1 :: s2 :: _s3 :: rest =>
    expand5 s2 :: expand5 s1 :: expand5 s0 :: 0xff :: blit rest
  | _ => []

/-- Modelled from the spec: the ring buffer of the audio resampler, holding the
samples of one channel not yet drained. -/
structure BlipBuf where
  samples : List Int

/-- Modelled from the spec: how many samples the resampler has available
to drain (the bridge calls this on the left channel). -/
def blip_samples_avail (b : BlipBuf) : Nat := b.samples.length

/-- Writes the list `xs` into the output buffer at positions `base`,
`base + 2`, `base + 4`, ...: the stereo interleave stride used by
`blip_read_samples` when its stereo flag is set. The output buffer maps a
position to the sample written there, `none` where nothing was written. -/
def writeStride2 (out : Nat → Option Int) (base : Nat) : List Int → (Nat → Option Int)
  | [] => out
  | x :: xs => writeStride2 (fun n => if n = base then some x else out n) (base + 2) xs

/-- Modelled from the spec: `blip_read_samples` drains up to `count` samples
from the ring buffer into the output at stride 2 starting at `base`
(stereo interleave), removing the drained samples. -/
def blip_read_samples (b : BlipBuf) (out : Nat → Option Int) (base count : Nat) :
    (Nat → Option Int) × BlipBuf :=
  (writeStride2 out base (b.samples.take count), BlipBuf.mk (b.samples.drop count))

/-- The audio epilogue of `BizAdvance` (lines 242 to 246): report the left
available count of the left channel capped at 1024, then drain up to 1024 samples of
the left channel to even positions of `sbuff` and up to 1024 samples of the
right channel to odd positions. Returns the reported count, the output
buffer, and both drained ring buffers. -/
def bizAdvanceAudio (left right : BlipBuf) (sbuff : Nat → Option Int) :
    Nat × (Nat → Option Int) × BlipBuf × BlipBuf :=
  let avail := blip_samples_avail left
  let nsamp := if avail > 1024 then 1024 else avail
  let resL := blip_read_samples left sbuff 0 1024
  let resR := blip_read_samples right resL.1 1 1024
  (nsamp, resR.1, resL.2, resR.2)

/-- Embedding of `BizGetSaveRamSize` (lines 273 to 290): the byte count for
each save type; `SAVEDATA_AUTODETECT` shares the 1 Mbit flash size, and the
default arm of the switch returns 0. -/
def BizGetSaveRamSize : SavedataType → Nat
  | SavedataType.autodetect => SIZE_CART_FLASH1M
  | SavedataType.flash1m => SIZE_CART_FLASH1M
  | SavedataType.flash512 => SIZE_CART_FLASH512
  | SavedataType.eeprom => SIZE_CART_EEPROM
  | SavedataType.sram => SIZE_CART_SRAM
  | SavedataType.forceNone => 0

/-- Embedding of `BizGetSaveRam`: `memcpy(data, ctx->savedata, size)` copies
exactly the first `BizGetSaveRamSize` bytes out of the save buffer. -/
def BizGetSaveRam (ctx : Bizctx) : List Nat :=
  ctx.savedata.take (BizGetSaveRamSize ctx.savedataType)

/-- Embedding of `BizPutSaveRam`: `memcpy(ctx->savedata, data, size)`
overwrites exactly the first `BizGetSaveRamSize` bytes of the save buffer
and leaves the tail unchanged. -/
def BizPutSaveRam (ctx : Bizctx) (data : List Nat) : Bizctx :=
  { ctx with savedata :=
      data.take (BizGetSaveRamSize ctx.savedataType)
      ++ ctx.savedata.drop (BizGetSaveRamSize ctx.savedataType) }

/-! Helper lemmas shared by the claim theorems. -/

/-- A context reached without a successful Load has NULL ROM and save-RAM
virtual-file handles: `BizCreate` zero-initializes them and a failed
`BizLoad` restores `romvf` to NULL without touching `sramvf`. -/
theorem noSuccessfulLoad_handles (ctx : Bizctx) (h : NoSuccessfulLoad ctx) :
    ctx.romvf = none ∧ ctx.sramvf = none := by
  induction h with
  | created allocOk bios isBIOS ctx res ev h =>
    simp only [BizCreate] at h
    split at h
    · split at h
      · split at h
        · injection h with h1 h2
          injection h1 with h1
          subst h1
          exact ⟨rfl, rfl⟩
        · injection h with h1 h2
          simp at h1
      · injection h with h1 h2
        injection h1 with h1
        subst h1
        exact ⟨rfl, rfl⟩
    · injection h with h1 h2
      simp at h1
  | failedLoad ctx res data allocOk isROM detectType h hfail ih =>
    cases allocOk with
    | false =>
      simp only [BizLoad, Bool.false_eq_true, if_false]
      exact ih
    | true =>
      by_cases hr : isROM data = true
      · simp [BizLoad, hr] at hfail
      · simp only [Bool.not_eq_true] at hr
        simp only [BizLoad, hr, Bool.false_eq_true, if_false, if_true]
        exact ⟨trivial, ih.2⟩

/-- The save-RAM size for every type fits in the fixed save buffer. -/
theorem saveRamSize_le_capacity (t : SavedataType) :
    BizGetSaveRamSize t ≤ SIZE_CART_FLASH1M := by
  cases t <;> decide

/-- Exiting the frame loop with an invariant that the counter is at the
entry value or one past it yields exactly one past it. -/
theorem frameLoop_exit {E : Type} (step : E → E) (fc : E → Nat)
    (hstep : ∀ t, fc (step t) = fc t ∨ fc (step t) = fc t + 1) :
    ∀ (fuel entry : Nat) (s sExit : E), (fc s = entry ∨ fc s = entry + 1) →
      frameLoop step fc fuel entry s = some sExit → fc sExit = entry + 1 := by
  intro fuel
  induction fuel with
  | zero =>
    intro entry s sExit hinv h
    simp [frameLoop] at h
  | succ fuel ih =>
    intro entry s sExit hinv h
    rw [frameLoop] at h
    by_cases hc : fc s = entry
    · rw [if_pos hc] at h
      refine ih entry (step s) sExit ?_ h
      rcases hstep s with h1 | h1
      · exact Or.inl (h1.trans hc)
      · exact Or.inr (by rw [h1, hc])
    · rw [if_neg hc] at h
      injection h with h
      subst h
      rcases hinv with h1 | h1
      · exact absurd h1 hc
      · exact h1

/-- Writes at or beyond `base` never touch a position below `base`. -/
theorem writeStride2_lt (out : Nat → Option Int) (base : Nat) (xs : List Int)
    (n : Nat) (h : n < base) : writeStride2 out base xs n = out n := by
  induction xs generalizing out base with
  | nil => rfl
  | cons x xs ih =>
    rw [writeStride2, ih _ _ (by omega)]
    simp [Nat.ne_of_lt h]

/-- Writes at stride 2 never touch a position of the opposite parity. -/
theorem writeStride2_parity (out : Nat → Option Int) (base : Nat) (xs : List Int)
    (n : Nat) (h : n % 2 ≠ base % 2) : writeStride2 out base xs n = out n := by
  induction xs generalizing out base with
  | nil => rfl
  | cons x xs ih =>
    rw [writeStride2, ih _ _ (by omega)]
    have hne : n ≠ base := by omega
    simp [hne]

/-- Position `base + 2 * i` of the output holds the `i`-th written sample. -/
theorem writeStride2_get (out : Nat → Option Int) (base : Nat) (xs : List Int)
    (i : Nat) (h : i < xs.length) :
    writeStride2 out base xs (base + 2 * i) = xs[i]? := by
  induction xs generalizing out base i with
  | nil => simp at h
  | cons x xs ih =>
    match i with
    | 0 =>
      rw [writeStride2, writeStride2_lt _ _ _ _ (by omega)]
      simp
    | i + 1 =>
      rw [writeStride2]
      have e : base + 2 * (i + 1) = (base + 2) + 2 * i := by omega
      rw [e, ih _ _ i (by simpa using h)]
      simp

/-- Dropping four cons cells matches an index offset of four. -/
theorem getElem?_cons4 {α : Type} (a b c d : α) (l : List α) (n : Nat) :
    (a :: b :: c :: d :: l)[n + 4]? = l[n]? := by
  show (a :: b :: c :: d :: l)[n + 1 + 1 + 1 + 1]? = l[n]?
  simp

/-! Claim theorems. -/

/-- Claim C1: provided each engine step advances the video frame counter by
at most one (the counter only ever moves to the next frame), a terminating
`BizAdvance` frame loop exits with the counter exactly one past its value
at entry: one Advance call is exactly one emulated video frame. -/
theorem BizAdvance_advances_exactly_one_frame {E : Type} (step : E → E) (fc : E → Nat)
    (hstep : ∀ t, fc (step t) = fc t ∨ fc (step t) = fc t + 1)
    (fuel : Nat) (s sExit : E)
    (h : BizAdvanceVideo step fc fuel s = some sExit) :
    fc sExit = fc s + 1 :=
  frameLoop_exit step fc hstep fuel (fc s) s sExit (Or.inl rfl) h

/-- Witness for C1: a counter-as-state engine where each step produces one
frame; two units of fuel reach the next frame boundary. -/
theorem BizAdvance_advances_exactly_one_frame_witness :
    BizAdvanceVideo Nat.succ id 2 0 = some 1 ∧ id 1 = id 0 + 1 :=
  ⟨rfl, BizAdvance_advances_exactly_one_frame Nat.succ id (fun _ => Or.inr rfl) 2 0 1 rfl⟩

/-- Claim C2: for every BIOS byte string failing BIOS validation,
`BizCreate` returns NULL, leaves no resources allocated, and its trace
closes the BIOS virtual file, destroys the engine instance and frees the
context, in that order. -/
theorem BizCreate_invalid_bios_full_rollback (b : List Nat) (isBIOS : List Nat → Bool)
    (h : isBIOS (b.take 16384) = false) :
    (BizCreate true (some b) isBIOS).1 = none ∧
    (BizCreate true (some b) isBIOS).2.1 = ({} : Res) ∧
    (BizCreate true (some b) isBIOS).2.2 =
      [CEvent.calloc true, CEvent.memsetSavedata false, CEvent.gbaCreate,
        CEvent.openBiosVF, CEvent.closeBiosVF, CEvent.gbaDestroy, CEvent.freeCtx] := by
  refine ⟨?_, ?_, ?_⟩ <;> simp [BizCreate, h]

/-- Witness for C2 at the empty byte string and the always-false
validator. -/
theorem BizCreate_invalid_bios_full_rollback_witness :
    (BizCreate true (some []) (fun _ => false)).1 = none ∧
    (BizCreate true (some []) (fun _ => false)).2.1 = ({} : Res) ∧
    (BizCreate true (some []) (fun _ => false)).2.2 =
      [CEvent.calloc true, CEvent.memsetSavedata false, CEvent.gbaCreate,
        CEvent.openBiosVF, CEvent.closeBiosVF, CEvent.gbaDestroy, CEvent.freeCtx] :=
  BizCreate_invalid_bios_full_rollback [] (fun _ => false) rfl

/-- Claim C3, code-bug exhibit: at the failing input where `calloc` returns
NULL, the C return value would be NULL, but before the `if (ctx)` check is
reached the code has already executed `memset(ctx->savedata, 0xff, ...)`
through the NULL context pointer — the trace records a write through NULL,
so it is false that no field is written and no buffer is touched. -/
theorem BizCreate_alloc_failure_writes_before_null_check :
    (BizCreate false none (fun _ => false)).2.2 =
      [CEvent.calloc false, CEvent.memsetSavedata true] ∧
    (BizCreate false none (fun _ => false)).1 = none :=
  ⟨rfl, rfl⟩

/-- Claim C4: for every ROM byte string failing ROM validation, `BizLoad`
returns failure and restores the context and the resource state exactly
(only the ROM buffer and its virtual file were allocated and both are
released), and a subsequent `BizLoad` of a valid ROM on the same context
succeeds. -/
theorem BizLoad_invalid_rom_rollback_reusable (ctx : Bizctx) (res : Res)
    (data : List Nat) (isROM : List Nat → Bool) (detectType : List Nat → SavedataType)
    (hrom : ctx.rom = none) (hromvf : ctx.romvf = none)
    (hres1 : res.romBufLive = false) (hres2 : res.romvfOpen = false)
    (h : isROM data = false) :
    BizLoad ctx res data true isROM detectType = (ctx, res, false) ∧
    ∀ data2, isROM data2 = true →
      (BizLoad ctx res data2 true isROM detectType).2.2 = true := by
  constructor
  · cases ctx
    cases res
    simp_all [BizLoad]
  · intro data2 h2
    simp [BizLoad, h2]

/-- Witness for C4: a fresh context, garbage bytes rejected by the
validator, then any accepted ROM loads successfully. -/
theorem BizLoad_invalid_rom_rollback_reusable_witness :
    BizLoad {} {} [] true (fun l => !l.isEmpty) (fun _ => SavedataType.sram)
      = ({}, {}, false) ∧
    ∀ data2, (fun l : List Nat => !l.isEmpty) data2 = true →
      (BizLoad {} {} data2 true (fun l => !l.isEmpty) (fun _ => SavedataType.sram)).2.2
        = true :=
  BizLoad_invalid_rom_rollback_reusable {} {} [] (fun l => !l.isEmpty)
    (fun _ => SavedataType.sram) rfl rfl rfl rfl rfl

/-- Claim C5: every output pixel of `blit` has the red and blue channel
bytes swapped relative to the input, each channel byte expanded by
`value | value >> 5`, and the alpha byte forced to `0xff`; under the
channel-byte encoding of the engine the channel value 0 maps to 0 and the
maximum channel value 31 maps to 255. -/
theorem blit_swaps_expands_forces_alpha (i : Nat) (src : List Nat)
    (h : 4 * i + 3 < src.length) :
    (blit src)[4 * i]? = (src[4 * i + 2]?).map expand5 ∧
    (blit src)[4 * i + 1]? = (src[4 * i + 1]?).map expand5 ∧
    (blit src)[4 * i + 2]? = (src[4 * i]?).map expand5 ∧
    (blit src)[4 * i + 3]? = some 0xff ∧
    expand5 (channelByte 0) = 0 ∧ expand5 (channelByte 31) = 255 := by
  induction i generalizing src with
  | zero =>
    match src, h with
    | s0 :: s1 :: s2 :: s3 :: rest, h =>
      refine ⟨?_, ?_, ?_, ?_, by decide, by decide⟩ <;> simp [blit]
    | [], h => simp only [List.length_nil] at h; omega
    | [a], h => simp only [List.length_cons, List.length_nil] at h; omega
    | [a, b], h => simp only [List.length_cons, List.length_nil] at h; omega
    | [a, b, c], h => simp only [List.length_cons, List.length_nil] at h; omega
  | succ i ih =>
    match src, h with
    | s0 :: s1 :: s2 :: s3 :: rest, h =>
      have h4 : 4 * i + 3 < rest.length := by
        simp only [List.length_cons] at h
        omega
      have e3 : 4 * (i + 1) + 3 = (4 * i + 3) + 4 := by omega
      have e2 : 4 * (i + 1) + 2 = (4 * i + 2) + 4 := by omega
      have e1 : 4 * (i + 1) + 1 = (4 * i + 1) + 4 := by omega
      have e0 : 4 * (i + 1) = 4 * i + 4 := by omega
      rw [e3, e2, e1, e0]
      simp only [blit, getElem?_cons4]
      exact ih rest h4
    | [], h => simp only [List.length_nil] at h; omega
    | [a], h => simp only [List.length_cons, List.length_nil] at h; omega
    | [a, b], h => simp only [List.length_cons, List.length_nil] at h; omega
    | [a, b, c], h => simp only [List.length_cons, List.length_nil] at h; omega

/-- Witness for C5: one pixel whose red channel is the encoded maximum
(byte 248) and whose green and alpha are the encoded 0. -/
theorem blit_swaps_expands_forces_alpha_witness :
    (blit [248, 0, 248, 0])[0]? = (([248, 0, 248, 0] : List Nat)[2]?).map expand5 ∧
    (blit [248, 0, 248, 0])[1]? = (([248, 0, 248, 0] : List Nat)[1]?).map expand5 ∧
    (blit [248, 0, 248, 0])[2]? = (([248, 0, 248, 0] : List Nat)[0]?).map expand5 ∧
    (blit [248, 0, 248, 0])[3]? = some 0xff ∧
    expand5 (channelByte 0) = 0 ∧ expand5 (channelByte 31) = 255 :=
  blit_swaps_expands_forces_alpha 0 [248, 0, 248, 0] (by decide)

/-- Claim C6: the sample-pair count `BizAdvance` reports never exceeds 1024
and is the available count capped at 1024 with the excess silently
discarded, while up to 1024 left and right samples are drained interleaved
into even and odd positions of the buffer of the caller. -/
theorem BizAdvance_audio_cap_and_interleave (left right : BlipBuf)
    (sbuff : Nat → Option Int) :
    (bizAdvanceAudio left right sbuff).1 ≤ 1024 ∧
    (bizAdvanceAudio left right sbuff).1 = min (blip_samples_avail left) 1024 ∧
    (∀ i, i < min 1024 left.samples.length →
      (bizAdvanceAudio left right sbuff).2.1 (2 * i) = left.samples[i]?) ∧
    (∀ i, i < min 1024 right.samples.length →
      (bizAdvanceAudio left right sbuff).2.1 (2 * i + 1) = right.samples[i]?) := by
  refine ⟨?_, ?_, ?_, ?_⟩
  · show (if blip_samples_avail left > 1024 then 1024 else blip_samples_avail left) ≤ 1024
    split <;> omega
  · show (if blip_samples_avail left > 1024 then 1024 else blip_samples_avail left)
      = min (blip_samples_avail left) 1024
    split <;> omega
  · intro i hi
    show writeStride2 (writeStride2 sbuff 0 (left.samples.take 1024)) 1
      (right.samples.take 1024) (2 * i) = left.samples[i]?
    rw [writeStride2_parity _ _ _ _ (by omega)]
    have e : 2 * i = 0 + 2 * i := by omega
    rw [e, writeStride2_get _ _ _ _ (by simp only [List.length_take]; omega)]
    exact List.getElem?_take_of_lt (by omega)
  · intro i hi
    show writeStride2 (writeStride2 sbuff 0 (left.samples.take 1024)) 1
      (right.samples.take 1024) (2 * i + 1) = right.samples[i]?
    have e : 2 * i + 1 = 1 + 2 * i := by omega
    rw [e, writeStride2_get _ _ _ _ (by simp only [List.length_take]; omega)]
    exact List.getElem?_take_of_lt (by omega)

/-- Witness for C6: one sample in each channel; the count is within the cap
and the two samples appear interleaved. -/
theorem BizAdvance_audio_cap_and_interleave_witness :
    (bizAdvanceAudio (BlipBuf.mk [3]) (BlipBuf.mk [4]) (fun _ => none)).1 ≤ 1024 ∧
    (bizAdvanceAudio (BlipBuf.mk [3]) (BlipBuf.mk [4]) (fun _ => none)).2.1 0 = some 3 ∧
    (bizAdvanceAudio (BlipBuf.mk [3]) (BlipBuf.mk [4]) (fun _ => none)).2.1 1 = some 4 := by
  obtain ⟨h1, h2, h3, h4⟩ :=
    BizAdvance_audio_cap_and_interleave (BlipBuf.mk [3]) (BlipBuf.mk [4]) (fun _ => none)
  refine ⟨h1, ?_, ?_⟩
  · have := h3 0 (by decide)
    simpa using this
  · have := h4 0 (by decide)
    simpa using this

/-- Claim C7: after any sequence of Advance latchings ending with inputs
`a`, every accessor hook returns the value latched by that most recent
call — last write wins — with the tilt accessors pre-shifted left 16 bits
and luminance and clock returned unmodified. -/
theorem peripheral_accessors_last_write_wins (ctx : Bizctx)
    (hist : List AdvanceInputs) (a : AdvanceInputs) :
    GetX (List.foldl latchInputs ctx (hist ++ [a])) = a.gyrox * 2 ^ 16 ∧
    GetY (List.foldl latchInputs ctx (hist ++ [a])) = a.gyroy * 2 ^ 16 ∧
    GetZ (List.foldl latchInputs ctx (hist ++ [a])) = a.gyroz * 2 ^ 16 ∧
    GetLight (List.foldl latchInputs ctx (hist ++ [a])) = a.luma ∧
    GetTime (List.foldl latchInputs ctx (hist ++ [a])) = a.time := by
  simp [List.foldl_append, GetX, GetY, GetZ, GetLight, GetTime, latchInputs]

/-- Claim C8: the save-RAM byte count by detected save type: distinct fixed
sizes for 1 Mbit flash (131072), 512 kbit flash (65536), EEPROM (8192) and
SRAM (32768), and zero for force-none. -/
theorem BizGetSaveRamSize_by_type :
    BizGetSaveRamSize SavedataType.flash1m = 131072 ∧
    BizGetSaveRamSize SavedataType.flash512 = 65536 ∧
    BizGetSaveRamSize SavedataType.eeprom = 8192 ∧
    BizGetSaveRamSize SavedataType.sram = 32768 ∧
    BizGetSaveRamSize SavedataType.forceNone = 0 ∧
    List.Pairwise (fun x y => x ≠ y)
      [BizGetSaveRamSize SavedataType.flash1m, BizGetSaveRamSize SavedataType.flash512,
        BizGetSaveRamSize SavedataType.eeprom, BizGetSaveRamSize SavedataType.sram] := by
  refine ⟨rfl, rfl, rfl, rfl, rfl, ?_⟩
  decide

/-- Claim C9: putting a buffer of at least `BizGetSaveRamSize` bytes and
then getting yields exactly the first `BizGetSaveRamSize` bytes of the
buffer; the get reports no byte past that size and the put touches no byte
of the save buffer past that size. -/
theorem saveRam_put_get_roundtrip (ctx : Bizctx) (data : List Nat)
    (hdata : BizGetSaveRamSize ctx.savedataType ≤ data.length) :
    BizGetSaveRam (BizPutSaveRam ctx data)
      = data.take (BizGetSaveRamSize ctx.savedataType) ∧
    (BizGetSaveRam (BizPutSaveRam ctx data)).length = BizGetSaveRamSize ctx.savedataType ∧
    (BizPutSaveRam ctx data).savedata.drop (BizGetSaveRamSize ctx.savedataType)
      = ctx.savedata.drop (BizGetSaveRamSize ctx.savedataType) := by
  have hlen : (data.take (BizGetSaveRamSize ctx.savedataType)).length
      = BizGetSaveRamSize ctx.savedataType := by
    simp only [List.length_take]
    omega
  have hget : BizGetSaveRam (BizPutSaveRam ctx data)
      = data.take (BizGetSaveRamSize ctx.savedataType) := by
    show (data.take (BizGetSaveRamSize ctx.savedataType)
        ++ ctx.savedata.drop (BizGetSaveRamSize ctx.savedataType)).take
          (BizGetSaveRamSize ctx.savedataType)
      = data.take (BizGetSaveRamSize ctx.savedataType)
    rw [List.take_append_eq_append_take, hlen, Nat.sub_self, List.take_zero,
      List.append_nil, List.take_take, Nat.min_self]
  refine ⟨hget, ?_, ?_⟩
  · rw [hget, hlen]
  · show (data.take (BizGetSaveRamSize ctx.savedataType)
        ++ ctx.savedata.drop (BizGetSaveRamSize ctx.savedataType)).drop
          (BizGetSaveRamSize ctx.savedataType)
      = ctx.savedata.drop (BizGetSaveRamSize ctx.savedataType)
    rw [List.drop_append_eq_append_drop, hlen, Nat.sub_self, List.drop_zero]
    simp [hlen]

/-- Witness for C9: an EEPROM-typed context and a constant 8192-byte
buffer. -/
theorem saveRam_put_get_roundtrip_witness :
    BizGetSaveRam (BizPutSaveRam { savedataType := SavedataType.eeprom } (List.replicate 8192 7))
      = (List.replicate 8192 7).take
          (BizGetSaveRamSize ({ savedataType := SavedataType.eeprom } : Bizctx).savedataType) ∧
    (BizGetSaveRam (BizPutSaveRam { savedataType := SavedataType.eeprom }
        (List.replicate 8192 7))).length
      = BizGetSaveRamSize ({ savedataType := SavedataType.eeprom } : Bizctx).savedataType ∧
    (BizPutSaveRam { savedataType := SavedataType.eeprom }
        (List.replicate 8192 7)).savedata.drop
          (BizGetSaveRamSize ({ savedataType := SavedataType.eeprom } : Bizctx).savedataType)
      = ({ savedataType := SavedataType.eeprom } : Bizctx).savedata.drop
          (BizGetSaveRamSize ({ savedataType := SavedataType.eeprom } : Bizctx).savedataType) :=
  saveRam_put_get_roundtrip { savedataType := SavedataType.eeprom } (List.replicate 8192 7)
    (by show (8192 : Nat) ≤ (List.replicate 8192 7).length
        rw [List.length_replicate])

/-- Claim C10: the ROM and save-RAM virtual-file handles are NULL on every
context on which no successful Load has been performed (Create
zero-initializes them and a failed Load restores them), and `BizDestroy`
dereferences them unconditionally, so destroying such a context
dereferences NULL handles: a safe Destroy has a successful prior Load as a
precondition. -/
theorem BizDestroy_null_deref_without_successful_load (ctx : Bizctx)
    (h : NoSuccessfulLoad ctx) :
    ctx.romvf = none ∧ ctx.sramvf = none ∧ BizDestroy ctx = none := by
  obtain ⟨h1, h2⟩ := noSuccessfulLoad_handles ctx h
  refine ⟨h1, h2, ?_⟩
  simp [BizDestroy, h1]

/-- Witness for C10: a context fresh from `BizCreate` with no BIOS. -/
theorem BizDestroy_null_deref_without_successful_load_witness :
    ({} : Bizctx).romvf = none ∧ ({} : Bizctx).sramvf = none ∧
      BizDestroy {} = none :=
  BizDestroy_null_deref_without_successful_load {}
    (NoSuccessfulLoad.created true none (fun _ => true) {}
      { ctxAlloc := true, gbaLive := true }
      [CEvent.calloc true, CEvent.memsetSavedata false, CEvent.gbaCreate] rfl)

end BizInterface
